import Mathlib

/-!
Shallow embedding of the query-translation and resilience layer of the
usaspending-mcp-nextjs repository.

Conventions used throughout:
* JavaScript numbers are modelled as exact rationals (`ℚ`) together with the
  special values `NaN` / `Infinity` / `-Infinity` (`JSNum`) where division can
  produce them.  Binary floating-point rounding is outside the model.
* A JavaScript object key whose value may be `undefined` is modelled as an
  `Option`: `none` means the key is absent from the serialized JSON request
  body (`JSON.stringify` drops `undefined`-valued keys).
* A `Date` value is modelled at day granularity as its epoch day number
  (`ℤ`, days since 1970-01-01); the handlers call `setHours(0,0,0,0)` or only
  use the date part, so sub-day precision never matters to the code embedded
  here.  `setDate` / `setMonth` / `setFullYear` normalization is reproduced via
  civil-from-days / days-from-civil conversions.
* `console.warn` emissions are modelled as an explicit list of warning strings
  returned alongside the result.
-/

/-! ## JavaScript arithmetic values -/

/-- A JavaScript number as produced by division: either an ordinary (finite)
number, `NaN`, or a signed infinity. -/
inductive JSNum where
  | num (q : ℚ)
  | nan
  | inf
  | negInf
deriving DecidableEq, Repr

/-- JavaScript division `a / b` on finite operands: `0/0 = NaN`,
`x/0 = ±Infinity` for `x ≠ 0`, ordinary rational division otherwise. -/
def jsDiv (a b : ℚ) : JSNum :=
  if b = 0 then
    if a = 0 then JSNum.nan
    else if 0 < a then JSNum.inf
    else JSNum.negInf
  else JSNum.num (a / b)

/-- JavaScript multiplication of a division result by a positive finite
constant (the code only multiplies by `100`): `NaN * c = NaN`,
`±Infinity * c = ±Infinity` for `c > 0`. -/
def jsMulPos (x : JSNum) (c : ℚ) : JSNum :=
  match x with
  | JSNum.num q => JSNum.num (q * c)
  | JSNum.nan => JSNum.nan
  | JSNum.inf => JSNum.inf
  | JSNum.negInf => JSNum.negInf

/-- The finite value of a `JSNum`, with `0` for the non-finite values; used
only to state sums over values that a companion conjunct proves finite. -/
def JSNum.toRat : JSNum → ℚ
  | JSNum.num q => q
  | _ => 0

/-! ## Calendar dates (JS `Date` at day granularity)

`civilFromDays` / `daysFromCivil` are the standard proleptic-Gregorian
conversions between an epoch day number and a (year, month, day) triple;
JS `Date` setters normalize out-of-range fields exactly this way. -/

/-- A civil (year, month 1..12, day) triple. -/
structure Ymd where
  y : ℤ
  m : ℤ
  d : ℤ
deriving DecidableEq, Repr

/-- Civil date of an epoch day number (days since 1970-01-01). -/
def civilFromDays (z0 : ℤ) : Ymd :=
  let z := z0 + 719468
  let era := z.fdiv 146097
  let doe := z - era * 146097
  let yoe := (doe - doe.fdiv 1460 + doe.fdiv 36524 - doe.fdiv 146096).fdiv 365
  let y := yoe + era * 400
  let doy := doe - (365 * yoe + yoe.fdiv 4 - yoe.fdiv 100)
  let mp := (5 * doy + 2).fdiv 153
  let d := doy - (153 * mp + 2).fdiv 5 + 1
  let m := mp + (if mp < 10 then 3 else (-9 : ℤ))
  { y := y + (if m ≤ 2 then 1 else 0), m := m, d := d }

/-- Epoch day number of a civil date; `d` may lie outside the month (JS
`Date` normalizes such values by rolling over). -/
def daysFromCivil (y0 m d : ℤ) : ℤ :=
  let y := y0 - (if m ≤ 2 then 1 else 0)
  let era := y.fdiv 400
  let yoe := y - era * 400
  let doy := (153 * (m + (if 2 < m then -3 else (9 : ℤ))) + 2).fdiv 5 + d - 1
  let doe := yoe * 365 + yoe.fdiv 4 - yoe.fdiv 100 + doy
  era * 146097 + doe - 719468

/-- JS `date.getFullYear()`. -/
def jsGetFullYear (t : ℤ) : ℤ := (civilFromDays t).y

/-- JS `date.getMonth()` (0-indexed). -/
def jsGetMonth (t : ℤ) : ℤ := (civilFromDays t).m - 1

/-- JS `date.getDate()` (day of month). -/
def jsGetDate (t : ℤ) : ℤ := (civilFromDays t).d

/-- JS `date.setDate(n)`: keeps year and month, sets the day-of-month to `n`,
normalizing out-of-range values through the time value. -/
def jsSetDate (t n : ℤ) : ℤ :=
  let c := civilFromDays t
  daysFromCivil c.y c.m 1 + (n - 1)

/-- JS `date.setMonth(mi)` with a 0-indexed month that may be negative or
large: the year absorbs the overflow and the day-of-month is kept,
normalizing through the time value. -/
def jsSetMonth (t mi : ℤ) : ℤ :=
  let c := civilFromDays t
  daysFromCivil (c.y + mi.fdiv 12) (mi.emod 12 + 1) 1 + (c.d - 1)

/-- JS `date.setFullYear(y)`: keeps month and day-of-month (Feb 29 in a
non-leap year rolls over to Mar 1). -/
def jsSetFullYear (t y : ℤ) : ℤ :=
  let c := civilFromDays t
  daysFromCivil y c.m 1 + (c.d - 1)

/-- `String(n).padStart(2, '0')` for a (nonnegative) month or day field. -/
def padTwo (n : ℤ) : String :=
  if n < 10 then "0" ++ toString n else toString n

/-- `formatDate` from `src/tools/index.ts`: renders a date as `YYYY-MM-DD`
(the year is not padded, exactly as the template literal leaves it). -/
def formatDate (t : ℤ) : String :=
  let c := civilFromDays t
  toString c.y ++ "-" ++ padTwo c.m ++ "-" ++ padTwo c.d

/-! ## String helpers mirroring the JS string operations used -/

/-- `s.toLowerCase()` (ASCII, the only characters the matched keywords use). -/
def jsToLower (s : String) : String := String.mk (s.toList.map Char.toLower)

/-- `s.trim()`: strips leading and trailing whitespace. -/
def jsTrim (s : String) : String :=
  String.mk (((s.toList.dropWhile Char.isWhitespace).reverse.dropWhile
    Char.isWhitespace).reverse)

/-- Accumulator-based splitting of a character list into maximal
whitespace-free words. -/
def wordsAux : List Char → List Char → List (List Char)
  | [], acc => if acc = [] then [] else [acc.reverse]
  | c :: cs, acc =>
    if c.isWhitespace then
      if acc = [] then wordsAux cs [] else acc.reverse :: wordsAux cs []
    else wordsAux cs (c :: acc)

/-- Split on runs of whitespace, dropping empty pieces; used to mirror the
`\s+`-separated token structure of the date regexes. -/
def splitWs (s : String) : List String :=
  (wordsAux s.toList []).map String.mk

/-- A nonempty all-digit string (the `(\d+)` capture group). -/
def allDigits (s : String) : Bool :=
  s ≠ "" && s.toList.all Char.isDigit

/-- `parseInt(s, 10)` on an all-digit capture: its numeric value. -/
def toNatD (s : String) : ℕ := (s.toNat?).getD 0

/-- `startsWithChars pat l`: `l` starts with `pat`. -/
def startsWithChars : List Char → List Char → Bool
  | [], _ => true
  | _ :: _, [] => false
  | p :: ps, c :: cs => p = c && startsWithChars ps cs

/-- Character-list substring test. -/
def containsChars (pat : List Char) : List Char → Bool
  | [] => startsWithChars pat []
  | c :: cs => startsWithChars pat (c :: cs) || containsChars pat cs

/-- JS `s.includes(pat)`. -/
def jsIncludes (s pat : String) : Bool := containsChars pat.toList s.toList

/-! ## DateExpression resolver (`src/tools/index.ts`)

The regex branch tests of `parseNaturalDate` / `parseDateRange` are embedded
as executable matchers over the lowercased, trimmed input.  The final
`new Date(dateStr)` generic-parse fallback of `parseNaturalDate` is
host-implementation-defined in JS, so it is passed in as an oracle
`jsDateParse : String → Option ℤ` (`none` models `NaN` time value). -/

/-- `/^\d{4}-\d{2}-\d{2}$/.test(s)`. -/
def isIsoDateShape (s : String) : Bool :=
  match s.toList with
  | [a, b, c, d, h1, e, f, h2, g, h] =>
    a.isDigit && b.isDigit && c.isDigit && d.isDigit && h1 = '-' &&
    e.isDigit && f.isDigit && h2 = '-' && g.isDigit && h.isDigit
  | _ => false

/-- `/^(\d+)\s+days?\s+ago$/`: the captured count, if the shape matches. -/
def matchDaysAgo (l : String) : Option ℕ :=
  match splitWs l with
  | [n, u, a] =>
    if allDigits n && (u = "day" || u = "days") && a = "ago" then some (toNatD n)
    else none
  | _ => none

/-- `/^last\s+(\d+)\s+days?$/`. -/
def matchLastDays (l : String) : Option ℕ :=
  match splitWs l with
  | [w, n, u] =>
    if w = "last" && allDigits n && (u = "day" || u = "days") then some (toNatD n)
    else none
  | _ => none

/-- `/^last\s+(\d+)\s+months?$/`. -/
def matchLastMonths (l : String) : Option ℕ :=
  match splitWs l with
  | [w, n, u] =>
    if w = "last" && allDigits n && (u = "month" || u = "months") then some (toNatD n)
    else none
  | _ => none

/-- `/^(\d+)\s+years?\s+ago$/`. -/
def matchYearsAgo (l : String) : Option ℕ :=
  match splitWs l with
  | [n, u, a] =>
    if allDigits n && (u = "year" || u = "years") && a = "ago" then some (toNatD n)
    else none
  | _ => none

/-- A resolved date (or range) together with the `console.warn` messages
emitted while resolving it. -/
structure DateParseResult where
  date : String
  warnings : List String
deriving DecidableEq, Repr

/-- `DateRange` from `src/tools/index.ts`. -/
structure DateRange where
  start_date : String
  end_date : String
deriving DecidableEq, Repr

/-- A resolved range together with the `console.warn` messages emitted. -/
structure RangeParseResult where
  range : DateRange
  warnings : List String
deriving DecidableEq, Repr

/-- `parseNaturalDate` from `src/tools/index.ts`.  `today` is the epoch day
of the (midnight-truncated) current date; `jsDateParse` is the host's
generic `new Date(string)` parser. -/
def parseNaturalDate (today : ℤ) (jsDateParse : String → Option ℤ)
    (dateStr : String) : DateParseResult :=
  if isIsoDateShape dateStr then { date := dateStr, warnings := [] }
  else
    let lower := jsToLower (jsTrim dateStr)
    if lower = "today" then { date := formatDate today, warnings := [] }
    else if lower = "yesterday" then
      { date := formatDate (jsSetDate today (jsGetDate today - 1)), warnings := [] }
    else
      match matchDaysAgo lower with
      | some days =>
        { date := formatDate (jsSetDate today (jsGetDate today - days)), warnings := [] }
      | none =>
      match matchLastDays lower with
      | some days =>
        { date := formatDate (jsSetDate today (jsGetDate today - days)), warnings := [] }
      | none =>
      if lower = "last week" then
        { date := formatDate (jsSetDate today (jsGetDate today - 7)), warnings := [] }
      else if lower = "last month" then
        { date := formatDate (jsSetMonth today (jsGetMonth today - 1)), warnings := [] }
      else
        match matchLastMonths lower with
        | some months =>
          { date := formatDate (jsSetMonth today (jsGetMonth today - months)), warnings := [] }
        | none =>
        if lower = "last quarter" then
          { date := formatDate (jsSetMonth today (jsGetMonth today - 3)), warnings := [] }
        else if lower = "last year" then
          { date := formatDate (jsSetFullYear today (jsGetFullYear today - 1)), warnings := [] }
        else
          match matchYearsAgo lower with
          | some years =>
            { date := formatDate (jsSetFullYear today (jsGetFullYear today - years)), warnings := [] }
          | none =>
          match jsDateParse dateStr with
          | some t => { date := formatDate t, warnings := [] }
          | none =>
            { date := formatDate today,
              warnings := ["Could not parse date string " ++ dateStr ++ ", defaulting to today"] }

/-- `parseDateRange` from `src/tools/index.ts`. -/
def parseDateRange (today : ℤ) (rangeStr : String) : RangeParseResult :=
  let lower := jsToLower (jsTrim rangeStr)
  if lower = "yesterday" then
    let yd := formatDate (jsSetDate today (jsGetDate today - 1))
    { range := { start_date := yd, end_date := yd }, warnings := [] }
  else if lower = "today" then
    { range := { start_date := formatDate today, end_date := formatDate today },
      warnings := [] }
  else
    match matchLastDays lower with
    | some days =>
      { range := { start_date := formatDate (jsSetDate today (jsGetDate today - days)),
                   end_date := formatDate today }, warnings := [] }
    | none =>
    if lower = "last week" then
      { range := { start_date := formatDate (jsSetDate today (jsGetDate today - 7)),
                   end_date := formatDate today }, warnings := [] }
    else if lower = "last month" then
      { range := { start_date := formatDate (jsSetMonth today (jsGetMonth today - 1)),
                   end_date := formatDate today }, warnings := [] }
    else
      match matchLastMonths lower with
      | some months =>
        { range := { start_date := formatDate (jsSetMonth today (jsGetMonth today - months)),
                     end_date := formatDate today }, warnings := [] }
      | none =>
      if lower = "last quarter" then
        { range := { start_date := formatDate (jsSetMonth today (jsGetMonth today - 3)),
                     end_date := formatDate today }, warnings := [] }
      else if lower = "last year" then
        { range := { start_date := formatDate (jsSetFullYear today (jsGetFullYear today - 1)),
                     end_date := formatDate today }, warnings := [] }
      else
        { range := { start_date := formatDate (jsSetDate today (jsGetDate today - 30)),
                     end_date := formatDate today },
          warnings := ["Could not parse date range " ++ rangeStr ++ ", defaulting to last 30 days"] }

/-! ## Filter compiler (`src/builders/filter-builder.ts`)

`FilterParams` models the TypeScript interface; `Option.none` models an
omitted (`undefined`) parameter.  In the compiled output an `Option.none`
field models the absence of that key in the serialized JSON.  JS truthiness
details that matter here: the empty string is falsy, the empty array is
truthy, and `minAmount` / `maxAmount` are tested with `=== undefined`
(so `0` counts as supplied). -/

/-- The `FilterParams` interface. -/
structure FilterParams where
  keywords : Option (List String) := none
  recipientName : Option String := none
  agencyName : Option String := none
  naicsCodes : Option (List String) := none
  pscCodes : Option (List String) := none
  activityStartDate : Option String := none
  activityEndDate : Option String := none
  minAmount : Option ℚ := none
  maxAmount : Option ℚ := none
  state : Option String := none
  awardTypeCodes : Option (List String) := none
  setAsideTypes : Option (List String) := none
  extentCompeted : Option (List String) := none
  contractPricingTypes : Option (List String) := none
deriving DecidableEq, Repr

/-- An optional string parameter is falsy when it is `undefined` or `""`. -/
def strFalsy (o : Option String) : Bool :=
  match o with
  | none => true
  | some s => s = ""

/-- `a || b` on an optional string with default `b`. -/
def strOrElse (o : Option String) (b : String) : String :=
  match o with
  | none => b
  | some s => if s = "" then b else s

/-- One `time_period` range element. -/
structure TimePeriod where
  start_date : String
  end_date : String
deriving DecidableEq, Repr

/-- One `agencies` element. -/
structure AgencyFilter where
  type : String
  tier : String
  name : String
deriving DecidableEq, Repr

/-- One `award_amounts` element; a bound left at `none` is dropped from the
serialized JSON (`lower_bound: undefined` does not survive
`JSON.stringify`). -/
structure AmountRange where
  lower_bound : Option ℚ
  upper_bound : Option ℚ
deriving DecidableEq, Repr

/-- One `place_of_performance_locations` element. -/
structure LocationFilter where
  country : String
  state : String
deriving DecidableEq, Repr

/-- `buildTimeFilter`: `null` when both dates are falsy; otherwise a
single-element range list with `||`-defaults of one year before today for a
missing start and today for a missing end.  (`today` stands for the
`new Date()` reads; the source renders the fallback dates with
`toISOString().split('T')[0]`, rendered here by the same `formatDate` used
elsewhere since both produce `YYYY-MM-DD`.) -/
def buildTimeFilter (today : ℤ) (startDate endDate : Option String) :
    Option (List TimePeriod) :=
  if strFalsy startDate && strFalsy endDate then none
  else
    some [{ start_date :=
              strOrElse startDate
                (formatDate (jsSetFullYear today (jsGetFullYear today - 1))),
            end_date := strOrElse endDate (formatDate today) }]

/-- `buildRecipientFilter`. -/
def buildRecipientFilter (recipientName : Option String) : Option (List String) :=
  if strFalsy recipientName then none
  else some [strOrElse recipientName ""]

/-- `buildAgencyFilter`. -/
def buildAgencyFilter (agencyName : Option String) : Option (List AgencyFilter) :=
  if strFalsy agencyName then none
  else some [{ type := "awarding", tier := "toptier", name := strOrElse agencyName "" }]

/-- `buildNaicsFilter`. -/
def buildNaicsFilter (naicsCodes : Option (List String)) : Option (List String) :=
  match naicsCodes with
  | some l => if l ≠ [] then some l else none
  | none => none

/-- `buildPscFilter`. -/
def buildPscFilter (pscCodes : Option (List String)) : Option (List String) :=
  match pscCodes with
  | some l => if l ≠ [] then some l else none
  | none => none

/-- `buildAmountFilter`: `null` iff both bounds are `undefined` (strict
`=== undefined` tests, so a `0` bound is kept). -/
def buildAmountFilter (minAmount maxAmount : Option ℚ) : Option (List AmountRange) :=
  if minAmount = none ∧ maxAmount = none then none
  else some [{ lower_bound := minAmount, upper_bound := maxAmount }]

/-- `buildPlaceOfPerformanceFilter`. -/
def buildPlaceOfPerformanceFilter (state : Option String) : Option (List LocationFilter) :=
  if strFalsy state then none
  else some [{ country := "USA", state := strOrElse state "" }]

/-- `buildSetAsideFilter`. -/
def buildSetAsideFilter (setAsideTypes : Option (List String)) : Option (List String) :=
  match setAsideTypes with
  | some l => if l ≠ [] then some l else none
  | none => none

/-- `buildCompetitionFilter`. -/
def buildCompetitionFilter (extentCompeted : Option (List String)) : Option (List String) :=
  match extentCompeted with
  | some l => if l ≠ [] then some l else none
  | none => none

/-- `buildContractPricingFilter`. -/
def buildContractPricingFilter (contractPricingTypes : Option (List String)) :
    Option (List String) :=
  match contractPricingTypes with
  | some l => if l ≠ [] then some l else none
  | none => none

/-- `buildKeywordsFilter`. -/
def buildKeywordsFilter (keywords : Option (List String)) : Option (List String) :=
  match keywords with
  | some l => if l ≠ [] then some l else none
  | none => none

/-- The compiled `filters` object.  `award_type_codes` is a plain field (the
key is always written); every other field is a JSON key that is present
exactly when the `Option` is `some`. -/
structure CompiledFilter where
  award_type_codes : List String
  keywords : Option (List String)
  time_period : Option (List TimePeriod)
  recipient_search_text : Option (List String)
  agencies : Option (List AgencyFilter)
  naics_codes : Option (List String)
  psc_codes : Option (List String)
  award_amounts : Option (List AmountRange)
  place_of_performance_locations : Option (List LocationFilter)
  set_aside_type_codes : Option (List String)
  extent_competed_type_codes : Option (List String)
  contract_pricing_type_codes : Option (List String)
deriving DecidableEq, Repr

/-- `buildAwardFilters`.  Note `params.awardTypeCodes || ['A','B','C','D']`:
in JS an empty array is truthy, so a supplied empty list is kept as-is and
only `undefined` falls back to the default. -/
def buildAwardFilters (today : ℤ) (params : FilterParams) : CompiledFilter :=
  { award_type_codes :=
      match params.awardTypeCodes with
      | some l => l
      | none => ["A", "B", "C", "D"]
    keywords := buildKeywordsFilter params.keywords
    time_period := buildTimeFilter today params.activityStartDate params.activityEndDate
    recipient_search_text := buildRecipientFilter params.recipientName
    agencies := buildAgencyFilter params.agencyName
    naics_codes := buildNaicsFilter params.naicsCodes
    psc_codes := buildPscFilter params.pscCodes
    award_amounts := buildAmountFilter params.minAmount params.maxAmount
    place_of_performance_locations := buildPlaceOfPerformanceFilter params.state
    set_aside_type_codes := buildSetAsideFilter params.setAsideTypes
    extent_competed_type_codes := buildCompetitionFilter params.extentCompeted
    contract_pricing_type_codes := buildContractPricingFilter params.contractPricingTypes }

/-! ## "New awards only" post-filters
(`src/tools/search-new-awards.ts`, `src/tools/search-awards.ts`)

A raw transaction record's `"Modification Number"` field is modelled as an
optional string; `none` covers a missing field (and any other falsy value,
which `x || ""` coerces to the empty string exactly like a missing one). -/

/-- The fields of a raw transaction record that the post-filters touch. -/
structure RawTransaction where
  modificationNumber : Option String := none
deriving DecidableEq, Repr

/-- `String(tx["Modification Number"] || "").trim()`. -/
def trimmedModNum (tx : RawTransaction) : String :=
  jsTrim (strOrElse tx.modificationNumber "")

/-- The `search_new_awards` post-filter predicate
(`modNum === "0" || modNum === ""`). -/
def newAwardsOnlyPred (tx : RawTransaction) : Bool :=
  trimmedModNum tx = "0" || trimmedModNum tx = ""

/-- The `search_awards` (searchNewAwardsOnly mode) post-filter predicate
(`String(tx["Modification Number"] || "").trim() === "0"`; no empty-string
alternative in this tool). -/
def baseAwardsOnlyPred (tx : RawTransaction) : Bool :=
  trimmedModNum tx = "0"

/-- The `search_new_awards` client-side filter over a fetched page. -/
def filterNewAwardsOnly (results : List RawTransaction) : List RawTransaction :=
  results.filter newAwardsOnlyPred

/-- The `search_awards` (searchNewAwardsOnly mode) client-side filter. -/
def filterBaseAwardsOnly (results : List RawTransaction) : List RawTransaction :=
  results.filter baseAwardsOnlyPred

/-! ## Competition aggregation
(`src/tools/analyze-competition.ts` and the identical inline handler in
`app/mcp/route.ts`; `transformCompetitionRecipient` from
`src/builders/field-mapper.ts`)

A raw award record for the competition projection carries the four fields the
aggregation reads.  `none` in `awardAmount` covers a missing or non-numeric
`"Award Amount"` (where `Number(...)` yields `NaN`, which `|| 0` coerces
to `0`). -/

/-- A raw competition-projection award record. -/
structure RawAward where
  recipientName : Option String := none
  recipientUEI : Option String := none
  awardAmount : Option ℚ := none
  awardId : Option String := none
deriving DecidableEq, Repr

/-- `String(award["Recipient Name"] || "Unknown")`. -/
def coerceRecipientName (o : Option String) : String := strOrElse o "Unknown"

/-- `String(award["Recipient UEI"] || "")`. -/
def coerceUEI (o : Option String) : String := strOrElse o ""

/-- `Number(award["Award Amount"]) || 0`: a missing or non-numeric amount
(`NaN`) becomes `0`; a numeric `0` stays `0`. -/
def coerceAmount (o : Option ℚ) : ℚ := o.getD 0

/-- `String(award["Award ID"] || "")`. -/
def coerceAwardId (o : Option String) : String := strOrElse o ""

/-- A `recipientMap` entry. -/
structure RecipientAgg where
  name : String
  uei : String
  totalAmount : ℚ
  awardCount : ℕ
  awards : List String
deriving DecidableEq, Repr

/-- Fold one record into its (insertion-ordered) entry: create the entry on
first sight of the name, then add the amount, bump the count and push the
award id — exactly the loop body of the handler.  The JS `Map` is modelled
as a list in insertion order (which is `Map` iteration order). -/
def insertAward (a : RawAward) : List RecipientAgg → List RecipientAgg
  | [] =>
    [{ name := coerceRecipientName a.recipientName
       uei := coerceUEI a.recipientUEI
       totalAmount := coerceAmount a.awardAmount
       awardCount := 1
       awards := [coerceAwardId a.awardId] }]
  | e :: rest =>
    if e.name = coerceRecipientName a.recipientName then
      { e with totalAmount := e.totalAmount + coerceAmount a.awardAmount
               awardCount := e.awardCount + 1
               awards := e.awards ++ [coerceAwardId a.awardId] } :: rest
    else e :: insertAward a rest

/-- The aggregation loop over a fetched result page. -/
def aggregateByRecipient (results : List RawAward) : List RecipientAgg :=
  results.foldl (fun m a => insertAward a m) []

/-- Stable insert for descending order by `totalAmount`: the new element goes
before the first strictly-smaller total, so elements with equal totals keep
their original relative order. -/
def insertDescByTotal (x : RecipientAgg) : List RecipientAgg → List RecipientAgg
  | [] => [x]
  | y :: ys =>
    if y.totalAmount < x.totalAmount then x :: y :: ys
    else y :: insertDescByTotal x ys

/-- `.sort((a, b) => b.totalAmount - a.totalAmount)`: a stable sort in
descending `totalAmount` order (JS `Array.prototype.sort` is stable),
realized as a stable insertion sort. -/
def sortDescByTotal : List RecipientAgg → List RecipientAgg
  | [] => []
  | x :: xs => insertDescByTotal x (sortDescByTotal xs)

/-- `params.limit || 20`: the truncation bound (`limit` is schema-restricted
to `≥ 1`, and a JS `0` would fall back to the default anyway). -/
def effectiveLimit (limit : Option ℕ) : ℕ :=
  match limit with
  | some n => if n = 0 then 20 else n
  | none => 20

/-- One entry of the returned `top_recipients` list.  `market_share_pct` and
`avg_award_size` are kept as the numeric values to which the source applies
`.toFixed(2)` for rendering. -/
structure CompetitionEntry where
  name : String
  uei : String
  total_amount : ℚ
  award_count : ℕ
  market_share_pct : JSNum
  avg_award_size : JSNum
deriving DecidableEq, Repr

/-- `transformCompetitionRecipient` from `src/builders/field-mapper.ts`:
`market_share_pct = (totalAmount / totalMarketSize) * 100`. -/
def transformCompetitionRecipient (r : RecipientAgg) (totalMarketSize : ℚ) :
    CompetitionEntry :=
  { name := r.name
    uei := r.uei
    total_amount := r.totalAmount
    award_count := r.awardCount
    market_share_pct := jsMulPos (jsDiv r.totalAmount totalMarketSize) 100
    avg_award_size := jsDiv r.totalAmount (r.awardCount : ℚ) }

/-- The success payload of `analyze_competition` (the fields backed by the
aggregation; `total_awards_analyzed` comes from upstream pagination metadata
and is not modelled). -/
structure CompetitionPayload where
  total_market_size : ℚ
  top_recipients : List CompetitionEntry
deriving DecidableEq, Repr

/-- The aggregation part of the `analyze_competition` handler: aggregate by
recipient, sort descending by total, truncate to `limit || 20`, sum the
truncated totals into `totalMarketSize`, and map each kept aggregate through
`transformCompetitionRecipient`.  All steps are total functions, so this
part of the handler cannot reach the `catch` branch: the handler returns the
success payload built from this value. -/
def analyzeCompetition (results : List RawAward) (limit : Option ℕ) :
    CompetitionPayload :=
  let topRecipients := (sortDescByTotal (aggregateByRecipient results)).take
    (effectiveLimit limit)
  let totalMarketSize := (topRecipients.map (fun r => r.totalAmount)).sum
  { total_market_size := totalMarketSize
    top_recipients := topRecipients.map
      (fun r => transformCompetitionRecipient r totalMarketSize) }

/-! ## Resilient fetch client (`USASpendingClient` in
`src/clients/usaspending.ts`, carried in `src/prompts/daily-competitive-brief.ts`)

Constructor defaults: note `maxRetries` uses `??` (so an explicit `0` is
kept) while `timeout`, `retryDelay` and `requestDelay` use `||` (so an
explicit `0` falls back to the default). -/

/-- `USASpendingClientConfig` (numeric fields). -/
structure USASpendingClientConfig where
  timeout : Option ℕ := none
  maxRetries : Option ℕ := none
  retryDelay : Option ℕ := none
  requestDelay : Option ℕ := none
deriving DecidableEq, Repr

/-- `config.timeout || 90000`. -/
def clientTimeout (c : USASpendingClientConfig) : ℕ :=
  match c.timeout with
  | some n => if n = 0 then 90000 else n
  | none => 90000

/-- `config.maxRetries ?? 2`. -/
def clientMaxRetries (c : USASpendingClientConfig) : ℕ := c.maxRetries.getD 2

/-- `config.retryDelay || 1000`. -/
def clientRetryDelay (c : USASpendingClientConfig) : ℕ :=
  match c.retryDelay with
  | some n => if n = 0 then 1000 else n
  | none => 1000

/-- `config.requestDelay || 100`. -/
def clientRequestDelay (c : USASpendingClientConfig) : ℕ :=
  match c.requestDelay with
  | some n => if n = 0 then 100 else n
  | none => 100

/-- What one `fetch(url, options)` attempt does: resolve with an HTTP status,
or reject with an error carrying a `name` and a `message`. -/
inductive FetchOutcome where
  | resp (status : ℕ)
  | thrown (name msg : String)
deriving DecidableEq, Repr

/-- How `fetchWithRetry` ends: return a response, throw the rate-limit-
exceeded error (naming the configured retry count), or (re)throw a fetch
error. -/
inductive FetchResult where
  | success (status : ℕ)
  | rateLimitExceeded (retries : ℕ)
  | errorThrown (name msg : String)
deriving DecidableEq, Repr

/-- The non-retryable test:
`error.name === 'AbortError' || error.message.includes('timeout')`. -/
def isTimeoutFailure (name msg : String) : Bool :=
  name = "AbortError" || jsIncludes msg "timeout"

/-- The body of the `fetchWithRetry` loop from attempt number `attempt` on,
given the outcome of each attempt as `outcomes`.  The second component
collects the backoff sleeps (`retryDelay * 2 ^ attempt`) performed before
each retry, in order.  A 429 response retries while attempts remain and
otherwise throws the rate-limit error; a thrown abort/timeout failure is
rethrown immediately; any other thrown failure retries while attempts
remain and is rethrown as `lastError` once the loop ends. -/
def fetchAttempts (retryDelay maxRetries : ℕ) (outcomes : ℕ → FetchOutcome)
    (attempt : ℕ) : FetchResult × List ℕ :=
  match outcomes attempt with
  | FetchOutcome.resp status =>
    if status = 429 then
      if h : attempt < maxRetries then
        let r := fetchAttempts retryDelay maxRetries outcomes (attempt + 1)
        (r.1, retryDelay * 2 ^ attempt :: r.2)
      else (FetchResult.rateLimitExceeded maxRetries, [])
    else (FetchResult.success status, [])
  | FetchOutcome.thrown name msg =>
    if isTimeoutFailure name msg then (FetchResult.errorThrown name msg, [])
    else if h : attempt < maxRetries then
      let r := fetchAttempts retryDelay maxRetries outcomes (attempt + 1)
      (r.1, retryDelay * 2 ^ attempt :: r.2)
    else (FetchResult.errorThrown name msg, [])
termination_by maxRetries + 1 - attempt
decreasing_by
  all_goals omega

/-- `fetchWithRetry`: the loop started at attempt `0`. -/
def fetchWithRetry (retryDelay maxRetries : ℕ) (outcomes : ℕ → FetchOutcome) :
    FetchResult × List ℕ :=
  fetchAttempts retryDelay maxRetries outcomes 0

/-! ## Request throttling (`USASpendingClient.throttleRequest`)

Time is an idealized monotone millisecond clock: `sleep(ms)` advances it by
exactly `ms` (a late timer only increases the spacing being proved).  The
state carries `lastRequestTime` and the current clock. -/

/-- Throttle-clock state: `last` is `lastRequestTime`, `now` the current
`Date.now()`. -/
structure ThrottleState where
  last : ℕ
  now : ℕ
deriving DecidableEq, Repr

/-- `throttleRequest`: sleep off the remaining delta when the last dispatch
was less than `requestDelay` ago, then record the dispatch timestamp.  After
the call, `last = now` is the moment the request is dispatched. -/
def throttleRequest (requestDelay : ℕ) (s : ThrottleState) : ThrottleState :=
  let timeSinceLastRequest := s.now - s.last
  let afterSleep :=
    if timeSinceLastRequest < requestDelay then
      s.now + (requestDelay - timeSinceLastRequest)
    else s.now
  { last := afterSleep, now := afterSleep }

/-! ## `getAwardDetails` and its tool handler
(`USASpendingClient.getAwardDetails`; `src/tools/get-award-details.ts`)

The upstream lookup outcome is the response status with its body text, or a
thrown fetch failure.  The client returns `Except`: `.ok` models a normal
return (with `none` for the 404 `null`), `.error` models a thrown error.
Parsing of a JSON error body into `{detail}` is abstracted: `detail` is the
body text, falling back to the status text when the body is empty. -/

/-- Upstream outcome of the single-award lookup. -/
inductive LookupOutcome where
  | response (status : ℕ) (body : String) (statusText : String)
  | failure (name msg : String)
deriving DecidableEq, Repr

/-- `response.ok`: status in the 200–299 range. -/
def respOk (status : ℕ) : Bool := 200 ≤ status && status ≤ 299

/-- The upstream-provided detail of a non-ok response
(`errorData.detail`, falling back to raw text / status text). -/
def errorDetail (body statusText : String) : String :=
  if body = "" then statusText else body

/-- `USASpendingClient.getAwardDetails`: `404` returns `null` (here
`Except.ok none`); other non-ok statuses throw the translated HTTP error; a
thrown `AbortError` is translated to the timeout message; other failures are
rethrown. -/
def getAwardDetails (o : LookupOutcome) : Except String (Option String) :=
  match o with
  | LookupOutcome.response status body statusText =>
    if status = 404 then Except.ok none
    else if respOk status then Except.ok (some body)
    else Except.error ("USASpending API error (" ++ toString status ++ "): " ++
      errorDetail body statusText)
  | LookupOutcome.failure name msg =>
    if name = "AbortError" then Except.error "USASpending API request timed out"
    else Except.error msg

/-- A tool response is a single text content block. -/
inductive ToolContent where
  | text (s : String)
deriving DecidableEq, Repr

/-- The not-found text of `get_award_details`. -/
def awardNotFoundText (awardId : String) : String :=
  "Award with ID " ++ awardId ++
    " not found. Tip: Use the 'internalId' field (generated_unique_award_id) from search_awards results, not the simple PIID."

/-- The error payload shape shared by all tool handlers. -/
def toolErrorText (msg : String) : String := "Error: " ++ msg

/-- The `get_award_details` handler around the client call: a `null` client
result renders the not-found text, a value renders its JSON, and a thrown
error is caught and rendered as the error payload. -/
def getAwardDetailsTool (awardId : String) (o : LookupOutcome) : ToolContent :=
  match getAwardDetails o with
  | Except.ok none => ToolContent.text (awardNotFoundText awardId)
  | Except.ok (some award) => ToolContent.text award
  | Except.error e => ToolContent.text (toolErrorText e)

/-! ## Unrecognized date inputs

The conjunction of all branch guards of the date resolvers failing, i.e. the
input matches none of the recognized date forms (for `parseNaturalDate`, the
generic `new Date(...)` fallback is a further, separate guard). -/

/-- `s` matches none of the recognized forms of `parseNaturalDate`. -/
def matchesNoDateForm (s : String) : Bool :=
  let lower := jsToLower (jsTrim s)
  !isIsoDateShape s && !(lower == "today") && !(lower == "yesterday") &&
  (matchDaysAgo lower).isNone && (matchLastDays lower).isNone &&
  !(lower == "last week") && !(lower == "last month") &&
  (matchLastMonths lower).isNone && !(lower == "last quarter") &&
  !(lower == "last year") && (matchYearsAgo lower).isNone

/-- `s` matches none of the recognized forms of `parseDateRange`. -/
def matchesNoRangeForm (s : String) : Bool :=
  let lower := jsToLower (jsTrim s)
  !(lower == "yesterday") && !(lower == "today") &&
  (matchLastDays lower).isNone && !(lower == "last week") &&
  !(lower == "last month") && (matchLastMonths lower).isNone &&
  !(lower == "last quarter") && !(lower == "last year")

/-! ## Helper lemmas about the individual builder rules -/

lemma buildKeywordsFilter_eq_some {o : Option (List String)} {v : List String} :
    buildKeywordsFilter o = some v ↔ o = some v ∧ v ≠ [] := by
  cases o with
  | none => simp [buildKeywordsFilter]
  | some l =>
    by_cases hl : l = [] <;> simp [buildKeywordsFilter, hl]
    exact fun h => h ▸ hl

lemma buildNaicsFilter_eq_some {o : Option (List String)} {v : List String} :
    buildNaicsFilter o = some v ↔ o = some v ∧ v ≠ [] := by
  cases o with
  | none => simp [buildNaicsFilter]
  | some l =>
    by_cases hl : l = [] <;> simp [buildNaicsFilter, hl]
    exact fun h => h ▸ hl

lemma buildPscFilter_eq_some {o : Option (List String)} {v : List String} :
    buildPscFilter o = some v ↔ o = some v ∧ v ≠ [] := by
  cases o with
  | none => simp [buildPscFilter]
  | some l =>
    by_cases hl : l = [] <;> simp [buildPscFilter, hl]
    exact fun h => h ▸ hl

lemma buildSetAsideFilter_eq_some {o : Option (List String)} {v : List String} :
    buildSetAsideFilter o = some v ↔ o = some v ∧ v ≠ [] := by
  cases o with
  | none => simp [buildSetAsideFilter]
  | some l =>
    by_cases hl : l = [] <;> simp [buildSetAsideFilter, hl]
    exact fun h => h ▸ hl

lemma buildCompetitionFilter_eq_some {o : Option (List String)} {v : List String} :
    buildCompetitionFilter o = some v ↔ o = some v ∧ v ≠ [] := by
  cases o with
  | none => simp [buildCompetitionFilter]
  | some l =>
    by_cases hl : l = [] <;> simp [buildCompetitionFilter, hl]
    exact fun h => h ▸ hl

lemma buildContractPricingFilter_eq_some {o : Option (List String)} {v : List String} :
    buildContractPricingFilter o = some v ↔ o = some v ∧ v ≠ [] := by
  cases o with
  | none => simp [buildContractPricingFilter]
  | some l =>
    by_cases hl : l = [] <;> simp [buildContractPricingFilter, hl]
    exact fun h => h ▸ hl

lemma buildRecipientFilter_eq_some {o : Option String} {v : List String} :
    buildRecipientFilter o = some v → ∃ s, o = some s ∧ s ≠ "" ∧ v = [s] := by
  cases o with
  | none => simp [buildRecipientFilter, strFalsy]
  | some s =>
    by_cases hs : s = "" <;> simp [buildRecipientFilter, strFalsy, strOrElse, hs]
    exact fun h => h.symm

lemma buildAgencyFilter_eq_some {o : Option String} {v : List AgencyFilter} :
    buildAgencyFilter o = some v →
      ∃ s, o = some s ∧ s ≠ "" ∧
        v = [{ type := "awarding", tier := "toptier", name := s }] := by
  cases o with
  | none => simp [buildAgencyFilter, strFalsy]
  | some s =>
    by_cases hs : s = "" <;> simp [buildAgencyFilter, strFalsy, strOrElse, hs]
    exact fun h => h.symm

lemma buildPlaceOfPerformanceFilter_eq_some {o : Option String} {v : List LocationFilter} :
    buildPlaceOfPerformanceFilter o = some v →
      ∃ s, o = some s ∧ s ≠ "" ∧ v = [{ country := "USA", state := s }] := by
  cases o with
  | none => simp [buildPlaceOfPerformanceFilter, strFalsy]
  | some s =>
    by_cases hs : s = "" <;> simp [buildPlaceOfPerformanceFilter, strFalsy, strOrElse, hs]
    exact fun h => h.symm

lemma buildTimeFilter_eq_some {today : ℤ} {sd ed : Option String} {v : List TimePeriod} :
    buildTimeFilter today sd ed = some v →
      (¬ (strFalsy sd = true ∧ strFalsy ed = true)) ∧ v ≠ [] := by
  by_cases h : strFalsy sd && strFalsy ed <;> simp_all [buildTimeFilter]
  exact fun hv => hv ▸ List.cons_ne_nil _ _

lemma buildAmountFilter_eq_some {mi ma : Option ℚ} {v : List AmountRange} :
    buildAmountFilter mi ma = some v → (mi ≠ none ∨ ma ≠ none) ∧ v ≠ [] := by
  by_cases h : mi = none ∧ ma = none <;> simp_all [buildAmountFilter]
  intro hv
  refine ⟨?_, hv ▸ List.cons_ne_nil _ _⟩
  by_cases hmi : mi = none
  · exact Or.inr (h hmi)
  · exact Or.inl hmi

/-- C2 (counterexample): the claim says the "new awards only" post-filter of
`search_awards` (searchNewAwardsOnly mode) retains a record whose trimmed
modification number is empty; the code's filter there tests only `=== "0"`,
so a record with an empty modification-number string is dropped. -/
theorem searchAwards_empty_modnum_dropped_cex :
    trimmedModNum { modificationNumber := some "" } = "" ∧
    filterBaseAwardsOnly [{ modificationNumber := some "" }] = [] := by
  constructor <;> rfl

/-- C2 (amended): the `search_new_awards` post-filter retains exactly the
records whose trimmed modification-number string is `"0"` or empty, while
the `search_awards` (searchNewAwardsOnly) post-filter retains exactly those
whose trimmed modification-number string is `"0"` (empty excluded); in
particular `"0"` is retained and `"1"` excluded by both. -/
theorem newAwards_postFilter_characterization :
    (∀ (results : List RawTransaction) (tx : RawTransaction),
      tx ∈ filterNewAwardsOnly results ↔
        tx ∈ results ∧ (trimmedModNum tx = "0" ∨ trimmedModNum tx = "")) ∧
    (∀ (results : List RawTransaction) (tx : RawTransaction),
      tx ∈ filterBaseAwardsOnly results ↔
        tx ∈ results ∧ trimmedModNum tx = "0") ∧
    newAwardsOnlyPred { modificationNumber := some "0" } = true ∧
    newAwardsOnlyPred { modificationNumber := some "1" } = false ∧
    baseAwardsOnlyPred { modificationNumber := some "0" } = true ∧
    baseAwardsOnlyPred { modificationNumber := some "1" } = false := by
  refine ⟨?_, ?_, rfl, rfl, rfl, rfl⟩
  · intro results tx
    simp [filterNewAwardsOnly, List.mem_filter, newAwardsOnlyPred]
  · intro results tx
    simp [filterBaseAwardsOnly, List.mem_filter, baseAwardsOnlyPred]

/-- C3 (counterexample): with `awardTypeCodes` supplied as the empty list,
`params.awardTypeCodes || ['A','B','C','D']` keeps it (an empty array is
truthy in JS), so the compiled filter binds `award_type_codes` to an empty
array — contradicting "no key is ever bound to an empty array". -/
theorem buildAwardFilters_empty_awardTypeCodes_cex :
    (buildAwardFilters 0 { awardTypeCodes := some [] }).award_type_codes = [] := by
  rfl

/-- C3 (amended): `award_type_codes` is always present — equal to the
supplied list whenever one was supplied (even an empty one) and to
`['A','B','C','D']` otherwise; every other possible key is present only if
its source parameter was supplied and non-empty, and no key other than
`award_type_codes` is ever bound to an empty array. -/
theorem buildAwardFilters_key_presence (today : ℤ) (p : FilterParams) :
    (p.awardTypeCodes = none →
      (buildAwardFilters today p).award_type_codes = ["A", "B", "C", "D"]) ∧
    (∀ l, p.awardTypeCodes = some l →
      (buildAwardFilters today p).award_type_codes = l) ∧
    (∀ v, (buildAwardFilters today p).keywords = some v →
      p.keywords = some v ∧ v ≠ []) ∧
    (∀ v, (buildAwardFilters today p).naics_codes = some v →
      p.naicsCodes = some v ∧ v ≠ []) ∧
    (∀ v, (buildAwardFilters today p).psc_codes = some v →
      p.pscCodes = some v ∧ v ≠ []) ∧
    (∀ v, (buildAwardFilters today p).set_aside_type_codes = some v →
      p.setAsideTypes = some v ∧ v ≠ []) ∧
    (∀ v, (buildAwardFilters today p).extent_competed_type_codes = some v →
      p.extentCompeted = some v ∧ v ≠ []) ∧
    (∀ v, (buildAwardFilters today p).contract_pricing_type_codes = some v →
      p.contractPricingTypes = some v ∧ v ≠ []) ∧
    (∀ v, (buildAwardFilters today p).recipient_search_text = some v →
      (∃ s, p.recipientName = some s ∧ s ≠ "") ∧ v ≠ []) ∧
    (∀ v, (buildAwardFilters today p).agencies = some v →
      (∃ s, p.agencyName = some s ∧ s ≠ "") ∧ v ≠ []) ∧
    (∀ v, (buildAwardFilters today p).place_of_performance_locations = some v →
      (∃ s, p.state = some s ∧ s ≠ "") ∧ v ≠ []) ∧
    (∀ v, (buildAwardFilters today p).time_period = some v →
      (¬ (strFalsy p.activityStartDate = true ∧ strFalsy p.activityEndDate = true)) ∧
        v ≠ []) ∧
    (∀ v, (buildAwardFilters today p).award_amounts = some v →
      (p.minAmount ≠ none ∨ p.maxAmount ≠ none) ∧ v ≠ []) := by
  refine ⟨?_, ?_, ?_, ?_, ?_, ?_, ?_, ?_, ?_, ?_, ?_, ?_, ?_⟩
  · intro h; simp [buildAwardFilters, h]
  · intro l h; simp [buildAwardFilters, h]
  · intro v h
    exact buildKeywordsFilter_eq_some.mp h
  · intro v h
    exact buildNaicsFilter_eq_some.mp h
  · intro v h
    exact buildPscFilter_eq_some.mp h
  · intro v h
    exact buildSetAsideFilter_eq_some.mp h
  · intro v h
    exact buildCompetitionFilter_eq_some.mp h
  · intro v h
    exact buildContractPricingFilter_eq_some.mp h
  · intro v h
    obtain ⟨s, hs, hne, hv⟩ := buildRecipientFilter_eq_some h
    exact ⟨⟨s, hs, hne⟩, by simp [hv]⟩
  · intro v h
    obtain ⟨s, hs, hne, hv⟩ := buildAgencyFilter_eq_some h
    exact ⟨⟨s, hs, hne⟩, by simp [hv]⟩
  · intro v h
    obtain ⟨s, hs, hne, hv⟩ := buildPlaceOfPerformanceFilter_eq_some h
    exact ⟨⟨s, hs, hne⟩, by simp [hv]⟩
  · intro v h
    exact buildTimeFilter_eq_some h
  · intro v h
    exact buildAmountFilter_eq_some h

/-- C3 (witness): the amended characterization applied to a concrete input
(`naicsCodes` supplied non-empty, everything else absent). -/
theorem buildAwardFilters_key_presence_witness :
    (buildAwardFilters 0 { naicsCodes := some ["541511"] }).naics_codes =
      some ["541511"] ∧
    ({ naicsCodes := some ["541511"] : FilterParams }.naicsCodes =
      some ["541511"] ∧ ["541511"] ≠ ([] : List String)) := by
  refine ⟨rfl, ?_⟩
  exact (buildAwardFilters_key_presence 0
    { naicsCodes := some ["541511"] }).2.2.2.1 ["541511"] rfl

/-- C4: with neither amount bound supplied the compiled filter has no
`award_amounts` key; with only `minAmount` supplied it is a single-element
list whose element has `lower_bound` set and no `upper_bound` key (the
`undefined`-valued bound is dropped from the serialized JSON, not sent as
zero or null). -/
theorem buildAwardFilters_award_amounts (today : ℤ) (p : FilterParams) :
    (p.minAmount = none → p.maxAmount = none →
      (buildAwardFilters today p).award_amounts = none) ∧
    (∀ m : ℚ, p.minAmount = some m → p.maxAmount = none →
      (buildAwardFilters today p).award_amounts =
        some [{ lower_bound := some m, upper_bound := none }]) := by
  constructor
  · intro h1 h2
    simp [buildAwardFilters, buildAmountFilter, h1, h2]
  · intro m h1 h2
    simp [buildAwardFilters, buildAmountFilter, h1, h2]

/-- C4 (witness): the amount-filter behavior at a concrete input with only
`minAmount = 50000` set. -/
theorem buildAwardFilters_award_amounts_witness :
    ({ minAmount := some 50000 : FilterParams }.minAmount = some 50000) ∧
    (buildAwardFilters 0 { minAmount := some 50000 }).award_amounts =
      some [{ lower_bound := some 50000, upper_bound := none }] :=
  ⟨rfl, (buildAwardFilters_award_amounts 0 { minAmount := some 50000 }).2
    50000 rfl rfl⟩

/-- C5: with both explicit date bounds absent the compiled filter has no
`time_period` key at all; with exactly one bound present the other is
synthesized (missing start → one year before today via `setFullYear`,
missing end → today) and a single-element range list is emitted. -/
theorem buildAwardFilters_time_period (today : ℤ) (p : FilterParams) :
    (p.activityStartDate = none → p.activityEndDate = none →
      (buildAwardFilters today p).time_period = none) ∧
    (∀ s, p.activityStartDate = some s → s ≠ "" → p.activityEndDate = none →
      (buildAwardFilters today p).time_period =
        some [{ start_date := s, end_date := formatDate today }]) ∧
    (∀ e, p.activityEndDate = some e → e ≠ "" → p.activityStartDate = none →
      (buildAwardFilters today p).time_period =
        some [{ start_date :=
                  formatDate (jsSetFullYear today (jsGetFullYear today - 1)),
                end_date := e }]) := by
  refine ⟨?_, ?_, ?_⟩
  · intro h1 h2
    simp [buildAwardFilters, buildTimeFilter, h1, h2, strFalsy]
  · intro s h1 hs h2
    simp [buildAwardFilters, buildTimeFilter, h1, h2, strFalsy, hs, strOrElse]
  · intro e h1 he h2
    simp [buildAwardFilters, buildTimeFilter, h1, h2, strFalsy, he, strOrElse]

/-- C5 (witness): the time-filter behavior at a concrete input with only the
end bound present, anchored at today = 2024-03-15 (epoch day 19797): the
missing start is synthesized to 2023-03-15. -/
theorem buildAwardFilters_time_period_witness :
    ({ activityEndDate := some "2024-03-15" : FilterParams }.activityEndDate =
      some "2024-03-15") ∧
    (buildAwardFilters 19797 { activityEndDate := some "2024-03-15" }).time_period =
      some [{ start_date := formatDate (jsSetFullYear 19797 (jsGetFullYear 19797 - 1)),
              end_date := "2024-03-15" }] :=
  ⟨rfl, (buildAwardFilters_time_period 19797
    { activityEndDate := some "2024-03-15" }).2.2 "2024-03-15" rfl
    (by decide) rfl⟩

/-- C8: an upstream 404 makes `getAwardDetails` return a null result
(`Except.ok none`, a normal return, not a thrown error), and the
`get_award_details` tool renders it as the well-formed "not found" text
payload, which differs from every error payload (`"Error: ..."`). -/
theorem getAwardDetails_notFound (awardId body statusText : String) :
    getAwardDetails (LookupOutcome.response 404 body statusText) =
      Except.ok none ∧
    getAwardDetailsTool awardId (LookupOutcome.response 404 body statusText) =
      ToolContent.text (awardNotFoundText awardId) ∧
    (∀ msg, awardNotFoundText awardId ≠ toolErrorText msg) := by
  refine ⟨rfl, rfl, ?_⟩
  intro msg h
  have h2 := congrArg (fun s => s.data.head?) h
  simp only [awardNotFoundText, toolErrorText, String.data_append] at h2
  simp at h2

/-- C9: two back-to-back requests through the same client dispatch at least
`requestDelay` apart: the first call records its dispatch time in `last`,
and whatever time `δ` elapses before the second call, the second call sleeps
off any remaining delta, so its dispatch time is at least `requestDelay`
after the first.  The default spacing is 100 ms. -/
theorem throttleRequest_min_spacing (requestDelay : ℕ) (s : ThrottleState) (δ : ℕ) :
    (throttleRequest requestDelay s).last + requestDelay ≤
      (throttleRequest requestDelay
        { last := (throttleRequest requestDelay s).last
          now := (throttleRequest requestDelay s).now + δ }).last ∧
    clientRequestDelay {} = 100 := by
  constructor
  · simp only [throttleRequest]
    split <;> split <;> omega
  · rfl

/-- Under an all-429 upstream, the loop from attempt `k ≤ maxRetries` sleeps
`retryDelay * 2 ^ i` before each remaining retry and ends in the rate-limit
error naming the configured retry count. -/
lemma fetchAttempts_all429 (d m : ℕ) (f : ℕ → FetchOutcome)
    (hf : ∀ i, i ≤ m → f i = FetchOutcome.resp 429) :
    ∀ n k, m - k = n → k ≤ m →
      fetchAttempts d m f k =
        (FetchResult.rateLimitExceeded m,
          (List.range (m - k)).map (fun i => d * 2 ^ (k + i))) := by
  intro n
  induction n with
  | zero =>
    intro k hn hk
    have hkm : k = m := by omega
    subst hkm
    rw [fetchAttempts.eq_def, hf k le_rfl]
    simp
  | succ n ih =>
    intro k hn hk
    have hkm : k < m := by omega
    have hrec := ih (k + 1) (by omega) (by omega)
    rw [fetchAttempts.eq_def, hf k hk]
    simp only [if_pos rfl, dif_pos hkm, hrec]
    have hrange : m - k = (m - (k + 1)) + 1 := by omega
    rw [hrange, List.range_succ_eq_map, List.map_cons, List.map_map]
    simp only [if_true, Prod.mk.injEq, List.cons.injEq, Nat.add_zero, true_and]
    congr 1
    funext i
    simp only [Function.comp_apply, Nat.succ_eq_add_one]
    ring_nf

/-- C6: the retry policy of `fetchWithRetry`.  With the constructor defaults
(2 retries, 1000 ms base delay): an all-429 upstream is retried with sleeps
`retryDelay * 2 ^ attempt` before each retry and ends in the rate-limit
error naming the retry count; a thrown abort/timeout failure is rethrown
immediately with no backoff sleep, wherever the loop stands; any other
thrown failure retries with the same backoff while budget remains and is
rethrown once attempts are exhausted; a 429 follows the same
budget discipline; a non-429 response is returned at once. -/
theorem fetchWithRetry_retry_policy (d m : ℕ) :
    (clientMaxRetries {} = 2 ∧ clientRetryDelay {} = 1000) ∧
    (∀ f : ℕ → FetchOutcome, (∀ i, i ≤ m → f i = FetchOutcome.resp 429) →
      fetchWithRetry d m f =
        (FetchResult.rateLimitExceeded m,
          (List.range m).map (fun i => d * 2 ^ i))) ∧
    (∀ (f : ℕ → FetchOutcome) (k : ℕ) (name msg : String),
      isTimeoutFailure name msg = true → f k = FetchOutcome.thrown name msg →
      fetchAttempts d m f k = (FetchResult.errorThrown name msg, [])) ∧
    (∀ (f : ℕ → FetchOutcome) (k : ℕ) (name msg : String),
      isTimeoutFailure name msg = false → f k = FetchOutcome.thrown name msg →
      (k < m → fetchAttempts d m f k =
        ((fetchAttempts d m f (k + 1)).1,
          d * 2 ^ k :: (fetchAttempts d m f (k + 1)).2)) ∧
      (m ≤ k → fetchAttempts d m f k = (FetchResult.errorThrown name msg, []))) ∧
    (∀ (f : ℕ → FetchOutcome) (k : ℕ), f k = FetchOutcome.resp 429 →
      (k < m → fetchAttempts d m f k =
        ((fetchAttempts d m f (k + 1)).1,
          d * 2 ^ k :: (fetchAttempts d m f (k + 1)).2)) ∧
      (m ≤ k → fetchAttempts d m f k =
        (FetchResult.rateLimitExceeded m, []))) ∧
    (∀ (f : ℕ → FetchOutcome) (k status : ℕ), f k = FetchOutcome.resp status →
      status ≠ 429 → fetchAttempts d m f k = (FetchResult.success status, [])) := by
  refine ⟨⟨rfl, rfl⟩, ?_, ?_, ?_, ?_, ?_⟩
  · intro f hf
    have h := fetchAttempts_all429 d m f hf m 0 (by omega) (by omega)
    simpa [fetchWithRetry] using h
  · intro f k name msg ht hk
    rw [fetchAttempts.eq_def, hk]
    simp [ht]
  · intro f k name msg ht hk
    constructor
    · intro hkm
      rw [fetchAttempts.eq_def, hk]
      simp [ht, hkm]
    · intro hmk
      rw [fetchAttempts.eq_def, hk]
      simp [ht, Nat.not_lt.mpr hmk]
  · intro f k hk
    constructor
    · intro hkm
      rw [fetchAttempts.eq_def, hk]
      simp [hkm]
    · intro hmk
      rw [fetchAttempts.eq_def, hk]
      simp [Nat.not_lt.mpr hmk]
  · intro f k status hk hs
    rw [fetchAttempts.eq_def, hk]
    simp [hs]

/-- C6 (witness): the policy at the default configuration on concrete
outcome traces — an all-429 trace ends in the rate-limit error after sleeps
of 1000 ms and 2000 ms, and an immediate `AbortError` is rethrown with no
retry. -/
theorem fetchWithRetry_retry_policy_witness :
    fetchWithRetry 1000 2 (fun _ => FetchOutcome.resp 429) =
      (FetchResult.rateLimitExceeded 2, [1000, 2000]) ∧
    fetchAttempts 1000 2 (fun _ => FetchOutcome.thrown "AbortError" "aborted") 0 =
      (FetchResult.errorThrown "AbortError" "aborted", []) := by
  constructor
  · have h := (fetchWithRetry_retry_policy 1000 2).2.1
      (fun _ => FetchOutcome.resp 429) (fun i _ => rfl)
    exact h.trans (by decide)
  · exact (fetchWithRetry_retry_policy 1000 2).2.2.1
      (fun _ => FetchOutcome.thrown "AbortError" "aborted") 0 "AbortError"
      "aborted" (by decide) rfl

/-! ## Lemmas about the competition aggregation pipeline -/

lemma mem_insertDescByTotal {x y : RecipientAgg} {l : List RecipientAgg} :
    x ∈ insertDescByTotal y l ↔ x = y ∨ x ∈ l := by
  induction l with
  | nil => simp [insertDescByTotal]
  | cons z zs ih =>
    by_cases h : z.totalAmount < y.totalAmount <;>
      simp [insertDescByTotal, h, ih]
    all_goals tauto

lemma mem_sortDescByTotal {x : RecipientAgg} {l : List RecipientAgg} :
    x ∈ sortDescByTotal l ↔ x ∈ l := by
  induction l with
  | nil => simp [sortDescByTotal]
  | cons z zs ih => simp [sortDescByTotal, mem_insertDescByTotal, ih]

lemma length_insertDescByTotal (y : RecipientAgg) (l : List RecipientAgg) :
    (insertDescByTotal y l).length = l.length + 1 := by
  induction l with
  | nil => simp [insertDescByTotal]
  | cons z zs ih =>
    by_cases h : z.totalAmount < y.totalAmount <;>
      simp [insertDescByTotal, h, ih]

lemma length_sortDescByTotal (l : List RecipientAgg) :
    (sortDescByTotal l).length = l.length := by
  induction l with
  | nil => simp [sortDescByTotal]
  | cons z zs ih => simp [sortDescByTotal, length_insertDescByTotal, ih]

lemma insertAward_ne_nil (a : RawAward) (m : List RecipientAgg) :
    insertAward a m ≠ [] := by
  cases m with
  | nil => simp [insertAward]
  | cons e rest =>
    by_cases h : e.name = coerceRecipientName a.recipientName <;>
      simp [insertAward, h]

lemma foldl_insertAward_ne_nil (rs : List RawAward) :
    ∀ m : List RecipientAgg, m ≠ [] →
      rs.foldl (fun m a => insertAward a m) m ≠ [] := by
  induction rs with
  | nil => intro m hm; simpa using hm
  | cons a rest ih =>
    intro m _
    exact ih (insertAward a m) (insertAward_ne_nil a m)

lemma aggregateByRecipient_ne_nil {rs : List RawAward} (h : rs ≠ []) :
    aggregateByRecipient rs ≠ [] := by
  cases rs with
  | nil => exact absurd rfl h
  | cons a rest =>
    simpa [aggregateByRecipient] using
      foldl_insertAward_ne_nil rest (insertAward a []) (insertAward_ne_nil a [])

lemma insertAward_total_zero {a : RawAward} {m : List RecipientAgg}
    (hm : ∀ e ∈ m, e.totalAmount = 0) (ha : coerceAmount a.awardAmount = 0) :
    ∀ e ∈ insertAward a m, e.totalAmount = 0 := by
  induction m with
  | nil =>
    intro e he
    simp [insertAward] at he
    simp [he, ha]
  | cons x xs ih =>
    intro e he
    by_cases h : x.name = coerceRecipientName a.recipientName
    · simp [insertAward, h] at he
      rcases he with he | he
      · have hx := hm x (by simp)
        simp [he, hx, ha]
      · exact hm e (by simp [he])
    · simp [insertAward, h] at he
      rcases he with he | he
      · exact hm e (by simp [he])
      · exact ih (fun e' he' => hm e' (by simp [he'])) e he

lemma foldl_insertAward_total_zero (rs : List RawAward)
    (hz : ∀ a ∈ rs, coerceAmount a.awardAmount = 0) :
    ∀ m : List RecipientAgg, (∀ e ∈ m, e.totalAmount = 0) →
      ∀ e ∈ rs.foldl (fun m a => insertAward a m) m, e.totalAmount = 0 := by
  induction rs with
  | nil => intro m hm e he; exact hm e he
  | cons a rest ih =>
    intro m hm e he
    exact ih (fun a' ha' => hz a' (by simp [ha'])) (insertAward a m)
      (insertAward_total_zero hm (hz a (by simp))) e he

lemma aggregateByRecipient_total_zero {rs : List RawAward}
    (hz : ∀ a ∈ rs, coerceAmount a.awardAmount = 0) :
    ∀ e ∈ aggregateByRecipient rs, e.totalAmount = 0 := by
  intro e he
  exact foldl_insertAward_total_zero rs hz [] (by simp) e he

lemma effectiveLimit_pos (limit : Option ℕ) : 0 < effectiveLimit limit := by
  cases limit with
  | none => simp [effectiveLimit]
  | some n =>
    by_cases h : n = 0 <;> simp [effectiveLimit, h]
    omega

/-- C1: whenever the truncated top-N list has a positive combined total, the
denominator of every returned `market_share_pct` is the sum of the truncated
top-N totals (which is exactly `total_market_size`), each percentage is the
entry's total divided by that sum times 100, and the percentages (exact
values, prior to the `.toFixed(2)` rendering) sum to 100. -/
theorem analyzeCompetition_market_share (results : List RawAward) (limit : Option ℕ)
    (h : 0 < (analyzeCompetition results limit).total_market_size) :
    (analyzeCompetition results limit).total_market_size =
      ((analyzeCompetition results limit).top_recipients.map
        (fun e => e.total_amount)).sum ∧
    (∀ e ∈ (analyzeCompetition results limit).top_recipients,
      e.market_share_pct = JSNum.num
        (e.total_amount / (analyzeCompetition results limit).total_market_size * 100)) ∧
    ((analyzeCompetition results limit).top_recipients.map
      (fun e => e.market_share_pct.toRat)).sum = 100 := by
  simp only [analyzeCompetition] at h ⊢
  set l := (sortDescByTotal (aggregateByRecipient results)).take (effectiveLimit limit)
    with hl
  set T := (l.map (fun r => r.totalAmount)).sum with hT
  have hTne : T ≠ 0 := ne_of_gt h
  refine ⟨?_, ?_, ?_⟩
  · rw [hT, List.map_map]
    rfl
  · intro e he
    simp only [List.mem_map] at he
    obtain ⟨r, hr, rfl⟩ := he
    simp [transformCompetitionRecipient, jsMulPos, jsDiv, hTne]
  · rw [List.map_map]
    have hfun : ((fun e => JSNum.toRat e.market_share_pct) ∘
        fun r => transformCompetitionRecipient r T) =
        fun r : RecipientAgg => r.totalAmount * (100 / T) := by
      funext r
      simp only [Function.comp_apply, transformCompetitionRecipient, jsMulPos,
        jsDiv, if_neg hTne, JSNum.toRat]
      field_simp
    rw [hfun, List.sum_map_mul_right, ← hT]
    field_simp

/-- C1 (witness): a concrete page with totals 75 and 25 — the combined
truncated total is positive and the exact percentages sum to 100. -/
theorem analyzeCompetition_market_share_witness :
    0 < (analyzeCompetition
      [{ recipientName := some "Acme", recipientUEI := some "U1",
         awardAmount := some 75, awardId := some "a1" },
       { recipientName := some "Beta", recipientUEI := none,
         awardAmount := some 25, awardId := some "b1" }] none).total_market_size ∧
    ((analyzeCompetition
      [{ recipientName := some "Acme", recipientUEI := some "U1",
         awardAmount := some 75, awardId := some "a1" },
       { recipientName := some "Beta", recipientUEI := none,
         awardAmount := some 25, awardId := some "b1" }] none).top_recipients.map
      (fun e => e.market_share_pct.toRat)).sum = 100 := by
  have h0 : 0 < (analyzeCompetition
      [{ recipientName := some "Acme", recipientUEI := some "U1",
         awardAmount := some 75, awardId := some "a1" },
       { recipientName := some "Beta", recipientUEI := none,
         awardAmount := some 25, awardId := some "b1" }] none).total_market_size := by
    norm_num [analyzeCompetition, aggregateByRecipient, insertAward, sortDescByTotal,
      insertDescByTotal, effectiveLimit, coerceAmount, coerceRecipientName, coerceUEI,
      coerceAwardId, strOrElse]
  exact ⟨h0, (analyzeCompetition_market_share _ none h0).2.2⟩

/-- C10: on a nonempty fetched page in which every record's award-amount
field coerces to 0, the truncated top-N combined total is 0 and every
returned `market_share_pct` is the JS value `NaN` (0/0), while the handler
still produces its success payload with a nonempty `top_recipients` list. -/
theorem analyzeCompetition_zero_amounts_nan (results : List RawAward) (limit : Option ℕ)
    (hne : results ≠ []) (hz : ∀ a ∈ results, coerceAmount a.awardAmount = 0) :
    (analyzeCompetition results limit).top_recipients ≠ [] ∧
    (analyzeCompetition results limit).total_market_size = 0 ∧
    (∀ e ∈ (analyzeCompetition results limit).top_recipients,
      e.market_share_pct = JSNum.nan) := by
  simp only [analyzeCompetition]
  set s := sortDescByTotal (aggregateByRecipient results) with hs
  set l := s.take (effectiveLimit limit) with hl
  have hsne : s ≠ [] := by
    intro hnil
    have hlen := length_sortDescByTotal (aggregateByRecipient results)
    rw [← hs, hnil] at hlen
    exact aggregateByRecipient_ne_nil hne
      (List.length_eq_zero.mp hlen.symm)
  have hlne : l ≠ [] := by
    rw [hl]
    intro hnil
    rcases List.take_eq_nil_iff.mp hnil with h0 | h0
    · have := effectiveLimit_pos limit
      omega
    · exact hsne h0
  have hzl : ∀ r ∈ l, r.totalAmount = 0 := by
    intro r hr
    have hrs : r ∈ s := List.take_subset _ _ hr
    exact aggregateByRecipient_total_zero hz r (mem_sortDescByTotal.mp (hs ▸ hrs))
  have hT : (l.map (fun r => r.totalAmount)).sum = 0 := by
    refine List.sum_eq_zero ?_
    intro x hx
    simp only [List.mem_map] at hx
    obtain ⟨r, hr, rfl⟩ := hx
    exact hzl r hr
  refine ⟨by simpa [List.map_eq_nil_iff] using hlne, hT, ?_⟩
  intro e he
  simp only [List.mem_map] at he
  obtain ⟨r, hr, rfl⟩ := he
  simp [transformCompetitionRecipient, jsMulPos, jsDiv, hT, hzl r hr]

/-- C10 (witness): a one-record page whose amount field is missing
(`Number(undefined)` is `NaN`, coerced to 0) yields a nonempty
`top_recipients` whose only percentage is `NaN`. -/
theorem analyzeCompetition_zero_amounts_nan_witness :
    ([{ recipientName := some "Acme", recipientUEI := none,
        awardAmount := none, awardId := some "a1" }] : List RawAward) ≠ [] ∧
    (∀ e ∈ (analyzeCompetition
      [{ recipientName := some "Acme", recipientUEI := none,
         awardAmount := none, awardId := some "a1" }] none).top_recipients,
      e.market_share_pct = JSNum.nan) := by
  refine ⟨by simp, ?_⟩
  exact (analyzeCompetition_zero_amounts_nan _ none (by simp)
    (by intro a ha; simp at ha; simp [ha, coerceAmount])).2.2

/-- C7: on an input matching none of the recognized date forms (and, for
`parseNaturalDate`, not generically parseable either), neither resolver
throws: `parseNaturalDate` returns today's date and `parseDateRange` the
range from `setDate(getDate() - 30)` (30 days back) through today, and in
both cases the fallback surfaces as a warning-level signal (the
`console.warn` emission modelled in `warnings`), not a thrown error. -/
theorem parseDate_unparseable_fallback (today : ℤ) (jsDateParse : String → Option ℤ)
    (s r : String) (hs : matchesNoDateForm s = true) (hp : jsDateParse s = none)
    (hr : matchesNoRangeForm r = true) :
    parseNaturalDate today jsDateParse s =
      { date := formatDate today,
        warnings := ["Could not parse date string " ++ s ++ ", defaulting to today"] } ∧
    parseDateRange today r =
      { range := { start_date := formatDate (jsSetDate today (jsGetDate today - 30)),
                   end_date := formatDate today },
        warnings := ["Could not parse date range " ++ r ++ ", defaulting to last 30 days"] } := by
  simp only [matchesNoDateForm, Bool.and_eq_true, Bool.not_eq_true',
    beq_eq_false_iff_ne, ne_eq, Option.isNone_iff_eq_none] at hs
  simp only [matchesNoRangeForm, Bool.and_eq_true, Bool.not_eq_true',
    beq_eq_false_iff_ne, ne_eq, Option.isNone_iff_eq_none] at hr
  obtain ⟨⟨⟨⟨⟨⟨⟨⟨⟨⟨hs1, hs2⟩, hs3⟩, hs4⟩, hs5⟩, hs6⟩, hs7⟩, hs8⟩, hs9⟩, hs10⟩, hs11⟩ := hs
  obtain ⟨⟨⟨⟨⟨⟨⟨hr1, hr2⟩, hr3⟩, hr4⟩, hr5⟩, hr6⟩, hr7⟩, hr8⟩ := hr
  constructor
  · simp [parseNaturalDate, hs1, hs2, hs3, hs4, hs5, hs6, hs7, hs8, hs9, hs10,
      hs11, hp]
  · simp [parseDateRange, hr1, hr2, hr3, hr4, hr5, hr6, hr7, hr8]

/-- C7 (witness): the fallbacks at `today` = 2024-03-15 (epoch day 19797) on
the unparseable input `"around last springtime"`: the single date resolves
to 2024-03-15 and the range to 2024-02-14 through 2024-03-15, each with its
warning. -/
theorem parseDate_unparseable_fallback_witness :
    matchesNoDateForm "around last springtime" = true ∧
    parseNaturalDate 19797 (fun _ => none) "around last springtime" =
      { date := "2024-03-15",
        warnings :=
          ["Could not parse date string around last springtime, defaulting to today"] } ∧
    parseDateRange 19797 "around last springtime" =
      { range := { start_date := "2024-02-14", end_date := "2024-03-15" },
        warnings :=
          ["Could not parse date range around last springtime, defaulting to last 30 days"] } := by
  have h := parseDate_unparseable_fallback 19797 (fun _ => none)
    "around last springtime" "around last springtime" (by decide) rfl (by decide)
  exact ⟨by decide, h.1.trans (by decide), h.2.trans (by decide)⟩
